import Mathlib

/-!
Verification of the mail-to-CSV converter (`getMailDataCsv.py` /
`getMailDataCsvFromEml.py`) against its specification.

The development shallowly embeds the two filter engines (tokenizer,
recursive-descent parser, predicate evaluation), the date-comparison
evaluator, the HTML tracking-pixel removal, the body-extraction loop and
the EML identity-key generator.  Strings are `List Char`; Python
exceptions are `Except String`; the ambient clock of `datetime.now` is an
explicit parameter.  Recursive scanners carry a `Nat` fuel argument that
is always large enough (every step consumes at least one character or one
token), so that every definition reduces in the kernel.
-/

deriving instance DecidableEq for Except

/-! ## Character and string helpers (models of Python `str` primitives) -/

/-- ASCII lower-casing on code points: the case folding Python's
case-insensitive regex flag applies to the ASCII letters used here. -/
def lowerN (n : Nat) : Nat := if 65 ≤ n ∧ n ≤ 90 then n + 32 else n

/-- Case-insensitive character equality (model of `re.IGNORECASE`). -/
def ciEqC (a b : Char) : Bool := lowerN a.toNat == lowerN b.toNat

/-- Python's `\s` / `str.strip` whitespace set (ASCII part). -/
def isPySpaceC (c : Char) : Bool :=
  c == ' ' || c == '\t' || c == '\n' || c == '\r' || c == '\x0b' || c == '\x0c'

/-- Model of Python `str.strip()`: drop leading and trailing whitespace. -/
def pyStrip (l : List Char) : List Char :=
  ((l.dropWhile isPySpaceC).reverse.dropWhile isPySpaceC).reverse

/-- ASCII upper-casing of one character (model of `str.upper` on the
ASCII-only tokens it is applied to). -/
def upperC (c : Char) : Char :=
  if 'a' ≤ c ∧ c ≤ 'z' then Char.ofNat (c.toNat - 32) else c

/-- Model of `str.upper()` on ASCII strings. -/
def pyUpper (l : List Char) : List Char := l.map upperC

/-- Case-insensitive prefix test, the model of
`tok.upper().startswith(p)` for an ASCII pattern `p`. -/
def ciStarts : List Char → List Char → Bool
  | [], _ => true
  | _ :: _, [] => false
  | p :: ps, c :: cs => ciEqC p c && ciStarts ps cs

/-- Case-sensitive prefix test (model of `str.startswith`). -/
def litStarts : List Char → List Char → Bool
  | [], _ => true
  | _ :: _, [] => false
  | p :: ps, c :: cs => (p == c) && litStarts ps cs

/-- Model of `tok.endswith(c)` for a one-character suffix. -/
def endsWithC (c : Char) (l : List Char) : Bool := l.getLast? == some c

/-- Decimal digit test. -/
def isDigitC (c : Char) : Bool := '0' ≤ c && c ≤ '9'

/-- Value of a list of decimal digits. -/
def digitsVal (l : List Char) : Nat := l.foldl (fun a c => a * 10 + (c.toNat - 48)) 0

/-! ## A small regex engine

Model of the fragment of Python `re` the filter rules use: literals,
`.`, character classes, the class escapes `\d \D \s \S \w \W`, escaped
punctuation, anchors `^ $ \A \Z \b \B`, the quantifiers `* + ?` (with
their lazy variants, which do not change whether a match exists),
grouping and alternation.  `reCompile` returns `none` exactly where
`re.compile` raises `re.error` on this fragment: unbalanced parentheses,
an unterminated class, a bad range, a dangling backslash, an unknown or
back-reference escape, or a quantifier with nothing to repeat.  All
matching is case-insensitive, as every call site passes
`re.IGNORECASE`. -/

inductive ClsItem where
  | rng (lo hi : Char)
  | pdigit | npdigit | pspace | npspace | pword | npword
deriving Repr, DecidableEq

inductive RNode where
  | eps
  | lit (c : Char)
  | dot
  | cls (neg : Bool) (items : List ClsItem)
  | bol
  | eol
  | eos
  | wordB (neg : Bool)
  | quest (a : RNode)
  | star (a : RNode)
  | seq (a b : RNode)
  | alt (a b : RNode)
deriving Repr, DecidableEq

/-- Word character for `\w` and `\b` (ASCII model). -/
def isWordC (c : Char) : Bool :=
  ('a' ≤ c && c ≤ 'z') || ('A' ≤ c && c ≤ 'Z') || isDigitC c || c == '_'

/-- Membership of a character in one class item, case-insensitively. -/
def clsItemMatch (it : ClsItem) (c : Char) : Bool :=
  match it with
  | .rng lo hi =>
      (lo.toNat ≤ c.toNat && c.toNat ≤ hi.toNat) ||
      (lo.toNat ≤ lowerN c.toNat && lowerN c.toNat ≤ hi.toNat) ||
      (lowerN lo.toNat ≤ lowerN c.toNat && lowerN c.toNat ≤ lowerN hi.toNat)
  | .pdigit => isDigitC c
  | .npdigit => !isDigitC c
  | .pspace => isPySpaceC c
  | .npspace => !isPySpaceC c
  | .pword => isWordC c
  | .npword => !isWordC c

/-- Membership in a (possibly negated) character class. -/
def clsMatch (neg : Bool) (items : List ClsItem) (c : Char) : Bool :=
  if neg then !(items.any (clsItemMatch · c)) else items.any (clsItemMatch · c)

/-- One escape sequence, inside or outside a class.  Returns the node it
denotes, or `none` for escapes `re.compile` rejects (and for the
group back-references `\1`..`\9`, outside this model's fragment). -/
def escNode (inClass : Bool) (c : Char) : Option RNode :=
  if c == 'd' then some (.cls false [.pdigit])
  else if c == 'D' then some (.cls false [.npdigit])
  else if c == 's' then some (.cls false [.pspace])
  else if c == 'S' then some (.cls false [.npspace])
  else if c == 'w' then some (.cls false [.pword])
  else if c == 'W' then some (.cls false [.npword])
  else if c == 'n' then some (.lit '\n')
  else if c == 't' then some (.lit '\t')
  else if c == 'r' then some (.lit '\r')
  else if c == 'f' then some (.lit '\x0c')
  else if c == 'v' then some (.lit '\x0b')
  else if c == 'a' then some (.lit '\x07')
  else if c == '0' then some (.lit '\x00')
  else if c == 'b' then some (if inClass then .lit '\x08' else .wordB false)
  else if c == 'B' then (if inClass then none else some (.wordB true))
  else if c == 'A' then (if inClass then none else some .bol)
  else if c == 'Z' then (if inClass then none else some .eos)
  else if isWordC c then none
  else some (.lit c)

/-- Parse the items of a character class after `[` (and after a leading
`^`, when present).  A `]` in first position is a literal. -/
def parseClsItems (fuel : Nat) (first : Bool) (cs : List Char) :
    Option (List ClsItem × List Char) :=
  match fuel with
  | 0 => none
  | fuel + 1 =>
    match cs with
    | [] => none
    | ']' :: rest =>
      if first then
        match parseClsItems fuel false rest with
        | some (its, r) => some (.rng ']' ']' :: its, r)
        | none => none
      else some ([], rest)
    | '\\' :: e :: rest =>
      match escNode true e with
      | some (.lit c) =>
        match rest with
        | '-' :: d :: rest2 =>
          if d == ']' then
            match parseClsItems fuel false (d :: rest2) with
            | some (its, r) => some (.rng c c :: .rng '-' '-' :: its, r)
            | none => none
          else if c.toNat ≤ d.toNat then
            match parseClsItems fuel false rest2 with
            | some (its, r) => some (.rng c d :: its, r)
            | none => none
          else none
        | _ =>
          match parseClsItems fuel false rest with
          | some (its, r) => some (.rng c c :: its, r)
          | none => none
      | some (.cls _ [it]) =>
        match parseClsItems fuel false rest with
        | some (its, r) => some (it :: its, r)
        | none => none
      | _ => none
    | '\\' :: [] => none
    | c :: '-' :: d :: rest =>
      if d == ']' then
        match parseClsItems fuel false (d :: rest) with
        | some (its, r) => some (.rng c c :: .rng '-' '-' :: its, r)
        | none => none
      else if d == '\\' then none
      else if c.toNat ≤ d.toNat then
        match parseClsItems fuel false rest with
        | some (its, r) => some (.rng c d :: its, r)
        | none => none
      else none
    | c :: rest =>
      match parseClsItems fuel false rest with
      | some (its, r) => some (.rng c c :: its, r)
      | none => none

/-- Quantifier characters. -/
def isQuantC (c : Char) : Bool := c == '*' || c == '+' || c == '?'

/-- An inline flag group `(?iLmsux)` (a no-op for matching here: the
only flag the call sites use is already hard-wired). -/
def parseFlagGroup : List Char → Option (List Char)
  | [] => none
  | ')' :: r => some r
  | c :: r =>
    if c == 'i' || c == 'L' || c == 'm' || c == 's' || c == 'u' || c == 'x'
    then parseFlagGroup r else none

/-- A quantifier's optional lazy marker `?`, after which another
quantifier is a "multiple repeat" error. -/
def quantTail (a : RNode) (cs : List Char) : Option (RNode × List Char) :=
  match cs with
  | '?' :: r2 => match r2 with
    | c :: _ => if isQuantC c then none else some (a, r2)
    | [] => some (a, [])
  | c :: _ => if isQuantC c then none else some (a, cs)
  | [] => some (a, [])

mutual

/-- Alternation level of the pattern grammar. -/
def parseRAlt (fuel : Nat) (cs : List Char) : Option (RNode × List Char) :=
  match fuel with
  | 0 => none
  | fuel + 1 =>
    match parseRSeq fuel cs with
    | none => none
    | some (a, rest) =>
      match rest with
      | '|' :: rest2 =>
        match parseRAlt fuel rest2 with
        | some (b, r) => some (.alt a b, r)
        | none => none
      | _ => some (a, rest)

/-- Concatenation level: a run of quantified atoms, stopping at `)`,
`|` or the end of the pattern. -/
def parseRSeq (fuel : Nat) (cs : List Char) : Option (RNode × List Char) :=
  match fuel with
  | 0 => none
  | fuel + 1 =>
    match cs with
    | [] => some (.eps, [])
    | ')' :: _ => some (.eps, cs)
    | '|' :: _ => some (.eps, cs)
    | _ =>
      match parseRAtomQ fuel cs with
      | none => none
      | some (a, rest) =>
        match parseRSeq fuel rest with
        | some (b, r) => some (.seq a b, r)
        | none => none

/-- One atom together with an optional quantifier (and the quantifier's
optional lazy marker).  A second quantifier in a row is an error, as in
`re` ("multiple repeat"). -/
def parseRAtomQ (fuel : Nat) (cs : List Char) : Option (RNode × List Char) :=
  match fuel with
  | 0 => none
  | fuel + 1 =>
    match parseRAtom fuel cs with
    | none => none
    | some (a, rest) =>
      match rest with
      | '*' :: r2 => quantTail (.star a) r2
      | '+' :: r2 => quantTail (.seq a (.star a)) r2
      | '?' :: r2 => quantTail (.quest a) r2
      | _ => some (a, rest)

/-- One unquantified atom. -/
def parseRAtom (fuel : Nat) (cs : List Char) : Option (RNode × List Char) :=
  match fuel with
  | 0 => none
  | fuel + 1 =>
    match cs with
    | [] => none
    | '(' :: rest =>
      match rest with
      | '?' :: ':' :: rest2 =>
        match parseRAlt fuel rest2 with
        | some (a, ')' :: r) => some (a, r)
        | _ => none
      | '?' :: rest2 =>
        match parseFlagGroup rest2 with
        | some r => some (.eps, r)
        | none => none
      | _ =>
        match parseRAlt fuel rest with
        | some (a, ')' :: r) => some (a, r)
        | _ => none
    | '[' :: rest =>
      match rest with
      | '^' :: rest2 =>
        match parseClsItems fuel true rest2 with
        | some (its, r) => some (.cls true its, r)
        | none => none
      | _ =>
        match parseClsItems fuel true rest with
        | some (its, r) => some (.cls false its, r)
        | none => none
    | '\\' :: e :: rest =>
      match escNode false e with
      | some a => some (a, rest)
      | none => none
    | '\\' :: [] => none
    | '^' :: rest => some (.bol, rest)
    | '$' :: rest => some (.eol, rest)
    | '.' :: rest => some (.dot, rest)
    | c :: rest => if isQuantC c then none else some (.lit c, rest)

end

/-- Model of `re.compile(pattern, re.IGNORECASE)`: `none` on the
patterns the library rejects.  Leftover input after the top-level
alternation can only start with an unbalanced `)`, which is an error. -/
def reCompile (pat : List Char) : Option RNode :=
  match parseRAlt (3 * pat.length + 8) pat with
  | some (r, []) => some r
  | _ => none

/-- A match position: the previous character (for `^` and `\b`) and the
unread rest of the subject. -/
structure MPos where
  prev : Option Char
  rest : List Char
deriving Repr

/-- Backtracking matcher: all positions reachable by matching `n` from
`p`.  The star case only iterates after consuming at least one
character, which preserves which positions are reachable. -/
def rmatch (fuel : Nat) (n : RNode) (p : MPos) : List MPos :=
  match fuel with
  | 0 => []
  | fuel + 1 =>
    match n with
    | .eps => [p]
    | .lit c =>
      match p.rest with
      | [] => []
      | x :: xs => if ciEqC c x then [⟨some x, xs⟩] else []
    | .dot =>
      match p.rest with
      | [] => []
      | x :: xs => if x == '\n' then [] else [⟨some x, xs⟩]
    | .cls neg items =>
      match p.rest with
      | [] => []
      | x :: xs => if clsMatch neg items x then [⟨some x, xs⟩] else []
    | .bol => match p.prev with | none => [p] | some _ => []
    | .eol => if p.rest == [] || p.rest == ['\n'] then [p] else []
    | .eos => if p.rest == [] then [p] else []
    | .wordB neg =>
      let pw := match p.prev with | none => false | some c => isWordC c
      let nw := match p.rest with | [] => false | c :: _ => isWordC c
      if (pw != nw) != neg then [p] else []
    | .quest a => p :: rmatch fuel a p
    | .star a =>
      p :: (rmatch fuel a p).flatMap (fun q =>
        if q.rest.length < p.rest.length then rmatch fuel (.star a) q else [])
    | .seq a b => (rmatch fuel a p).flatMap (rmatch fuel b)
    | .alt a b => rmatch fuel a p ++ rmatch fuel b p

/-- Size of a pattern, for the matcher's fuel. -/
def rSize : RNode → Nat
  | .quest a => rSize a + 1
  | .star a => rSize a + 1
  | .seq a b => rSize a + rSize b + 1
  | .alt a b => rSize a + rSize b + 1
  | _ => 1

/-- The positions of a subject, each with its previous character. -/
def positionsFrom (pr : Option Char) : List Char → List MPos
  | [] => [⟨pr, []⟩]
  | c :: cs => ⟨pr, c :: cs⟩ :: positionsFrom (some c) cs

/-- Model of `re.search(pattern-node, s, re.IGNORECASE) is not None`:
unanchored search, a match may start at any position. -/
def reSearchNode (r : RNode) (s : List Char) : Bool :=
  (positionsFrom none s).any (fun p =>
    !(rmatch ((rSize r + 2) * (s.length + 2) + 4) r p).isEmpty)

/-! ## The rule tokenizer

Model of `TOKEN_REGEX.findall` (identical in `getMailDataCsv.py` lines
216–228 and `getMailDataCsvFromEml.py` lines 164–176) followed by the
`tokenize` post-pass.  `findall` scans left to right: at each position
the alternatives are tried in order (`SUBJECT:/.*?/`, `FROM:/.*?/`,
`TO:/.*?/`, `CC:/.*?/`, `DATE[<>]=?\S+`, `AND`, `OR`, `(`, `)`, all
case-insensitively); on a match the matched slice is emitted and the
scan resumes after it, otherwise the scan advances one character. -/

/-- Characters up to and including the first `/`, failing on a newline
first (the lazy `.*?/` with `.` not matching a newline).  Returns the
number of characters consumed. -/
def scanSlash : List Char → Option Nat
  | [] => none
  | c :: cs =>
    if c == '/' then some 1
    else if c == '\n' then none
    else (scanSlash cs).map (· + 1)

/-- Length of the greedy nonspace run `\S*`. -/
def nonSpaceLen : List Char → Nat
  | [] => 0
  | c :: cs => if isPySpaceC c then 0 else nonSpaceLen cs + 1

/-- One `PFX:/.*?/`-shaped alternative: case-insensitive prefix, then
the lazy body up to the first `/`. -/
def slashAlt (p : List Char) (cs : List Char) : Option Nat :=
  if ciStarts p cs then (scanSlash (cs.drop p.length)).map (p.length + ·) else none

/-- The `DATE[<>]=?\S+` alternative.  When `=` follows the comparator
but no nonspace character follows the `=`, the regex backtracks and
`\S+` consumes the `=` itself, so the token is `DATE<=`-shaped either
way. -/
def dateAlt (cs : List Char) : Option Nat :=
  if ciStarts "DATE".toList cs then
    match cs.drop 4 with
    | c :: rest =>
      if c == '<' || c == '>' then
        match rest with
        | '=' :: r2 => some (6 + nonSpaceLen r2)
        | _ => let k := nonSpaceLen rest; if k == 0 then none else some (5 + k)
      else none
    | [] => none
  else none

/-- A literal keyword alternative (`AND`, `OR`), case-insensitive. -/
def wordAlt (w : List Char) (cs : List Char) : Option Nat :=
  if ciStarts w cs then some w.length else none

/-- The parenthesis alternatives. -/
def parenAlt : List Char → Option Nat
  | c :: _ => if c == '(' || c == ')' then some 1 else none
  | [] => none

/-- The whole alternation, tried in the order of `TOKEN_REGEX`.
Every successful match has length at least one. -/
def matchToken (cs : List Char) : Option Nat :=
  (slashAlt "SUBJECT:/".toList cs) <|> (slashAlt "FROM:/".toList cs) <|>
  (slashAlt "TO:/".toList cs) <|> (slashAlt "CC:/".toList cs) <|>
  dateAlt cs <|> wordAlt "AND".toList cs <|> wordAlt "OR".toList cs <|> parenAlt cs

/-- The `findall` scan.  A successful match consumes `k ≥ 1`
characters; the recursion drops `k - 1` from the tail, which equals
dropping `k` from the whole and makes every step consume fuel. -/
def findAll (fuel : Nat) (cs : List Char) : List (List Char) :=
  match fuel, cs with
  | 0, _ => []
  | _, [] => []
  | fuel + 1, c :: cs' =>
    match matchToken (c :: cs') with
    | some k => (c :: cs').take k :: findAll fuel (cs'.drop (k - 1))
    | none => findAll fuel cs'

/-- Model of `tokenize` (both files): the `findall` scan, then the
post-pass `t.upper() if t in ("AND", "OR") else t` — which maps the
already-uppercase operator spellings to themselves and leaves every
other matched slice (including `and`, `Or`, …) unchanged. -/
def tokenize (rule : List Char) : List (List Char) :=
  if rule == [] then []
  else (findAll (rule.length + 1) rule).map
    (fun t => if t == "AND".toList || t == "OR".toList then pyUpper t else t)

example : tokenize "SUBJECT:/a/ AND SUBJEC:/b/".toList =
    ["SUBJECT:/a/".toList, "AND".toList] := by decide

example : tokenize "(SUBJECT:/a/ OR date>=NOW-7d )".toList =
    ["(".toList, "SUBJECT:/a/".toList, "OR".toList, "date>=NOW-7d".toList, ")".toList] := by
  decide

example : tokenize "(SUBJECT:/a/ OR date>=NOW-7d)".toList =
    ["(".toList, "SUBJECT:/a/".toList, "OR".toList, "date>=NOW-7d)".toList] := by
  decide

example : tokenize "SUBJECT:/a/ and SUBJECT:/b/".toList =
    ["SUBJECT:/a/".toList, "and".toList, "SUBJECT:/b/".toList] := by decide

example : reCompile "(".toList = none := by decide

example : reSearchNode ((reCompile "a".toList).getD .eps) "xAy".toList = true := by decide

example : reSearchNode ((reCompile "a.c".toList).getD .eps) "xabcy".toList = true := by decide

/-! ## Datetimes

Model of the slice of Python `datetime` the two scripts use.  A value
holds its wall-clock reading as seconds on a continuous timeline
(`wall`, the value a naive comparison sees) together with an optional
UTC offset in seconds (`tz`; `none` models a naive datetime).  Aware
values compare by instant (`wall - offset`), naive values by wall
reading, and a mixed comparison raises `TypeError` exactly as in
Python.  The ambient clock `datetime.now(tz)` becomes an explicit
parameter `now`, the current instant in UTC seconds. -/

structure PyDatetime where
  wall : Int
  tz : Option Int
deriving Repr, DecidableEq

/-- The fixed JST timezone the scripts build: `timezone(timedelta(hours=9))`. -/
def JST_OFFSET : Int := 32400

/-- Comparison of two datetimes; `TypeError` on naive versus aware. -/
def dtCmp (a b : PyDatetime) : Except String Ordering :=
  match a.tz, b.tz with
  | some x, some y => .ok (compare (a.wall - x) (b.wall - y))
  | none, none => .ok (compare a.wall b.wall)
  | _, _ => .error "TypeError: cannot compare offset-naive and offset-aware datetimes"

/-- The comparator dispatch at the end of `eval_date_token`: one branch
per operator, `False` for anything else (unreachable from the token
regex, which only produces the four operators). -/
def cmpByOp (op : List Char) (a b : PyDatetime) : Except String Bool :=
  if op == ">=".toList then (dtCmp a b).map (fun o => o != Ordering.lt)
  else if op == "<=".toList then (dtCmp a b).map (fun o => o != Ordering.gt)
  else if op == ">".toList then (dtCmp a b).map (fun o => o == Ordering.gt)
  else if op == "<".toList then (dtCmp a b).map (fun o => o == Ordering.lt)
  else .ok false

/-- ASCII lower-casing of one character (model of `str.lower` on the
unit letter of a relative date). -/
def asciiLowerC (c : Char) : Char :=
  if 'A' ≤ c ∧ c ≤ 'Z' then Char.ofNat (c.toNat + 32) else c

/-- The `(\S+)$` tail of the DATE token regex: the whole remainder must
be one nonempty nonspace run, allowing the single trailing newline
that `$` tolerates. -/
def fullNonSpace (cs : List Char) : Option (List Char) :=
  let core := match cs.getLast? with
    | some '\n' => cs.dropLast
    | _ => cs
  if core ≠ [] ∧ core.all (fun c => !isPySpaceC c) then some core else none

/-- Model of `re.match(r"^DATE([<>]=?)(\S+)$", token, re.IGNORECASE)`:
the comparator and right-hand-side groups, or `none` when the token is
not DATE-shaped.  When no nonspace character follows `DATE>=`, the
regex backtracks and `\S+` captures the `=` itself. -/
def matchDateToken (tok : List Char) : Option (List Char × List Char) :=
  if ciStarts "DATE".toList tok then
    match tok.drop 4 with
    | c :: rest =>
      if c == '<' || c == '>' then
        match rest with
        | '=' :: r2 =>
          match fullNonSpace r2 with
          | some rhs => some ([c, '='], rhs)
          | none =>
            match fullNonSpace ('=' :: r2) with
            | some rhs => some ([c], rhs)
            | none => none
        | _ => (fullNonSpace rest).map (fun rhs => ([c], rhs))
      else none
    | [] => none
  else none

/-- Model of `DATE_REL_REGEX`, `^NOW-(\d+)([dhm])$` case-insensitively:
the amount and the lower-cased unit. -/
def dateRelMatch (rhs : List Char) : Option (Nat × Char) :=
  if ciStarts "NOW-".toList rhs then
    let r := rhs.drop 4
    let ds := r.takeWhile isDigitC
    let rest := r.drop ds.length
    if ds ≠ [] then
      match rest with
      | [u] =>
        let ul := asciiLowerC u
        if ul == 'd' || ul == 'h' || ul == 'm' then some (digitsVal ds, ul) else none
      | _ => none
    else none
  else none

/-- Model of `re.match(r"^\d{4}-\d{2}-\d{2}$", rhs)` followed by
`map(int, rhs.split("-"))`. -/
def absDateMatch (rhs : List Char) : Option (Nat × Nat × Nat) :=
  match rhs with
  | [a, b, c, d, '-', e, f, '-', g, h] =>
    if [a, b, c, d, e, f, g, h].all isDigitC then
      some (digitsVal [a, b, c, d], digitsVal [e, f], digitsVal [g, h])
    else none
  | _ => none

/-- A proleptic-Gregorian leap year. -/
def isLeapYear (y : Nat) : Bool := y % 4 == 0 && (y % 100 != 0 || y % 400 == 0)

/-- Days in a month. -/
def daysInMonth (y m : Nat) : Nat :=
  if m == 2 then (if isLeapYear y then 29 else 28)
  else if m == 4 || m == 6 || m == 9 || m == 11 then 30
  else 31

/-- Days from the epoch 1970-01-01 to the civil date `y-m-d` (valid for
`y ≥ 1`, the range `datetime` accepts). -/
def daysFromCivil (y m d : Nat) : Int :=
  let y' := if m ≤ 2 then y - 1 else y
  let era := y' / 400
  let yoe := y' % 400
  let mp := (m + 9) % 12
  let doy := (153 * mp + 2) / 5 + d - 1
  let doe := yoe * 365 + yoe / 4 - yoe / 100 + doy
  (era * 146097 + doe : Int) - 719468

/-- Model of the `datetime(...)` constructor: `none` where it raises
`ValueError` (field out of range). -/
def mkPyDatetime (y m d hh mi ss : Nat) (tz : Option Int) : Option PyDatetime :=
  if 1 ≤ y ∧ y ≤ 9999 ∧ 1 ≤ m ∧ m ≤ 12 ∧ 1 ≤ d ∧ d ≤ daysInMonth y m ∧
     hh ≤ 23 ∧ mi ≤ 59 ∧ ss ≤ 59 then
    some ⟨daysFromCivil y m d * 86400 + (hh * 3600 + mi * 60 + ss : Nat), tz⟩
  else none

/-- Two decimal digits. -/
def parse2d : List Char → Option (Nat × List Char)
  | a :: b :: rest => if isDigitC a && isDigitC b then some (digitsVal [a, b], rest) else none
  | _ => none

/-- A timezone suffix of an ISO timestamp: empty, `Z`, or `±HH:MM`. -/
def parseIsoOffset : List Char → Option (Option Int)
  | [] => some none
  | ['Z'] => some (some 0)
  | c :: rest =>
    if c == '+' ∨ c == '-' then
      match parse2d rest with
      | some (hh, ':' :: r2) =>
        match parse2d r2 with
        | some (mm, []) =>
          let off : Int := (hh * 3600 + mm * 60 : Nat)
          some (some (if c == '-' then -off else off))
        | _ => none
      | _ => none
    else none

/-- The optional seconds-and-fraction tail of an ISO time.  Fractional
seconds are parsed and discarded: this model keeps a one-second
resolution, which no claim depends on. -/
def parseIsoSeconds : List Char → Option (Nat × List Char)
  | ':' :: rest =>
    match parse2d rest with
    | some (ss, '.' :: r2) =>
      let ds := r2.takeWhile isDigitC
      if ds ≠ [] then some (ss, r2.drop ds.length) else none
    | some (ss, r2) => some (ss, r2)
    | none => none
  | cs => some (0, cs)

/-- Model of `datetime.fromisoformat` on the common forms
`YYYY-MM-DD[{T, space}HH:MM[:SS[.ffffff]]][offset]`: `none` where the
library raises `ValueError`. -/
def fromisoformat (cs : List Char) : Option PyDatetime :=
  match absDateMatch (cs.take 10) with
  | none => none
  | some (y, m, d) =>
    match cs.drop 10 with
    | [] => mkPyDatetime y m d 0 0 0 none
    | sep :: timecs =>
      if sep == 'T' || sep == ' ' then
        match parse2d timecs with
        | some (hh, ':' :: r1) =>
          match parse2d r1 with
          | some (mi, r2) =>
            match parseIsoSeconds r2 with
            | some (ss, r3) =>
              match parseIsoOffset r3 with
              | some tz => mkPyDatetime y m d hh mi ss tz
              | none => none
            | none => none
          | none => none
        | _ => none
      else none

/-- Model of `eval_date_token`, which is line-for-line identical in
`getMailDataCsv.py` (lines 351–404) and `getMailDataCsvFromEml.py`
(lines 185–224): match the token against `^DATE([<>]=?)(\S+)$` (no
match: `False`); a record with no timestamp is `False` for every
operator; otherwise resolve the right-hand side — `NOW-<n><unit>`
relative to the current instant in the message's timezone (JST when
naive), a bare `YYYY-MM-DD` as midnight in that timezone, anything
else through `fromisoformat` (a failure there is caught and yields
`False`) — and apply the comparator, whose naive/aware mismatch
`TypeError` propagates to the caller. -/
def eval_date_token (token : List Char) (mail_dt : Option PyDatetime) (now : Int) :
    Except String Bool :=
  match matchDateToken token with
  | none => .ok false
  | some (op, rhs) =>
    match mail_dt with
    | none => .ok false
    | some dt =>
      match dateRelMatch rhs with
      | some (amount, unit) =>
        let delta : Int :=
          if unit == 'd' then (amount * 86400 : Nat)
          else if unit == 'h' then (amount * 3600 : Nat)
          else (amount * 60 : Nat)
        let baseTz := dt.tz.getD JST_OFFSET
        cmpByOp op dt ⟨now + baseTz - delta, some baseTz⟩
      | none =>
        match absDateMatch rhs with
        | some (y, m, d) =>
          match mkPyDatetime y m d 0 0 0 (some (dt.tz.getD JST_OFFSET)) with
          | none => .ok false
          | some cmpDt => cmpByOp op dt cmpDt
        | none =>
          match fromisoformat rhs with
          | none => .ok false
          | some c =>
            let cmpDt := if c.tz = none then { c with tz := some (dt.tz.getD JST_OFFSET) } else c
            cmpByOp op dt cmpDt

example : eval_date_token "DATE>=2024-01-01".toList
    (some ⟨daysFromCivil 2024 3 1 * 86400, some JST_OFFSET⟩) 0 = .ok true := by decide

example : eval_date_token "DATE<2024-01-01".toList
    (some ⟨daysFromCivil 2023 12 31 * 86400 + 86340, some JST_OFFSET⟩) 0 = .ok true := by
  decide

example : eval_date_token "DATE>=NOW-7d".toList
    (some ⟨1000000 - 3 * 86400, some 0⟩) 1000000 = .ok true := by decide

example : eval_date_token "DATE>=NOW-7d".toList
    (some ⟨1000000 - 10 * 86400, some 0⟩) 1000000 = .ok false := by decide

/-! ## The record a rule is evaluated against

The bundled arguments of `parse_and_eval` — subject, the three address
lists, the optional timestamp — plus the explicit clock for
`datetime.now`. -/

structure MailEnv where
  subject : List Char
  fromAddrs : List (List Char)
  toAddrs : List (List Char)
  ccAddrs : List (List Char)
  mailDt : Option PyDatetime
  now : Int

/-- Model of `re.search(pattern, subject, re.IGNORECASE) is not None`
inside `try: ... except re.error: return False`: `none` when the
pattern does not compile. -/
def reSearchPat (pat subject : List Char) : Option Bool :=
  (reCompile pat).map (fun r => reSearchNode r subject)

/-- Model of the group extraction `re.match(r"PFX:/(.*)/$", tok,
re.IGNORECASE | re.DOTALL)` for a prefix of length `plen`, on a token
already known to end in `/`: the greedy group is everything strictly
between the prefix and the final slash, and the match fails exactly
when nothing follows the prefix. -/
def extractPat (plen : Nat) (tok : List Char) : Option (List Char) :=
  if plen < tok.length ∧ tok.getLast? = some '/' then
    some ((tok.drop plen).dropLast)
  else none

/-! ## The POP3 entry point's filter engine

Model of `parse_and_eval` in `getMailDataCsv.py` (lines 239–350).  The
source interleaves parsing and evaluation through a mutable index and
Python exceptions; here the index is threaded through return values,
exceptions are `Except.error`, and each `while` loop is a tail-recursive
loop function.  Every function takes a fuel argument consumed on each
call; `parse_and_eval` passes more fuel than any run can use, since
every nested call or loop iteration advances the token index.  In this
engine both operators evaluate their right operand before combining
(`value = value or rhs` after `rhs = parse_term()`), so parsing always
continues past an already-decided operator. -/

namespace Pop

mutual

/-- One factor: a parenthesized expression or a single predicate
(source lines 273–349).  The `SUBJECT` guard is case-sensitive
(`tok.startswith("SUBJECT:/")`), unlike the `FROM`/`TO`/`CC`/`DATE`
guards which test `tok.upper()`. -/
def parse_factor (fuel : Nat) (toks : List (List Char)) (idx : Nat) (env : MailEnv) :
    Except String (Bool × Nat) :=
  match fuel with
  | 0 => .error "out of fuel"
  | fuel + 1 =>
    if idx < toks.length then
      let tok := toks.getD idx []
      if tok == "(".toList then
        match parse_expr fuel toks (idx + 1) env with
        | .error e => .error e
        | .ok (v, i) =>
          if i < toks.length ∧ toks.getD i [] = ")".toList then .ok (v, i + 1)
          else .error "Missing closing parenthesis in filter rule"
      else if litStarts "SUBJECT:/".toList tok && endsWithC '/' tok then
        match extractPat 9 tok with
        | none => .error ("Invalid SUBJECT token: " ++ String.mk tok)
        | some pat =>
          match reSearchPat pat env.subject with
          | none => .ok (false, idx + 1)
          | some b => .ok (b, idx + 1)
      else if ciStarts "FROM:/".toList tok && endsWithC '/' tok then
        match extractPat 6 tok with
        | none => .error ("Invalid FROM token: " ++ String.mk tok)
        | some pat =>
          match reCompile pat with
          | none => .ok (false, idx + 1)
          | some r => .ok (env.fromAddrs.any (fun a => reSearchNode r a), idx + 1)
      else if ciStarts "TO:/".toList tok && endsWithC '/' tok then
        match extractPat 4 tok with
        | none => .error ("Invalid TO token: " ++ String.mk tok)
        | some pat =>
          match reCompile pat with
          | none => .ok (false, idx + 1)
          | some r => .ok (env.toAddrs.any (fun a => reSearchNode r a), idx + 1)
      else if ciStarts "CC:/".toList tok && endsWithC '/' tok then
        match extractPat 4 tok with
        | none => .error ("Invalid CC token: " ++ String.mk tok)
        | some pat =>
          match reCompile pat with
          | none => .ok (false, idx + 1)
          | some r => .ok (env.ccAddrs.any (fun a => reSearchNode r a), idx + 1)
      else if ciStarts "DATE".toList tok then
        match eval_date_token tok env.mailDt env.now with
        | .error e => .error e
        | .ok ok => .ok (ok, idx + 1)
      else .error ("Unexpected token: " ++ String.mk tok)
    else .error "Unexpected end of filter rule"
termination_by structural fuel

/-- Expression level, `term (OR term)*` (source lines 257–264).  The
right operand is parsed and evaluated before the disjunction. -/
def parse_expr (fuel : Nat) (toks : List (List Char)) (idx : Nat) (env : MailEnv) :
    Except String (Bool × Nat) :=
  match fuel with
  | 0 => .error "out of fuel"
  | fuel + 1 =>
    match parse_term fuel toks idx env with
    | .error e => .error e
    | .ok (v, i) => expr_loop fuel toks i v env
termination_by structural fuel

/-- The `while tokens[idx] == "OR"` loop of `parse_expr`. -/
def expr_loop (fuel : Nat) (toks : List (List Char)) (idx : Nat) (v : Bool) (env : MailEnv) :
    Except String (Bool × Nat) :=
  match fuel with
  | 0 => .error "out of fuel"
  | fuel + 1 =>
    if idx < toks.length ∧ toks.getD idx [] = "OR".toList then
      match parse_term fuel toks (idx + 1) env with
      | .error e => .error e
      | .ok (rhs, i) => expr_loop fuel toks i (v || rhs) env
    else .ok (v, idx)
termination_by structural fuel

/-- Term level, `factor (AND factor)*` (source lines 265–272). -/
def parse_term (fuel : Nat) (toks : List (List Char)) (idx : Nat) (env : MailEnv) :
    Except String (Bool × Nat) :=
  match fuel with
  | 0 => .error "out of fuel"
  | fuel + 1 =>
    match parse_factor fuel toks idx env with
    | .error e => .error e
    | .ok (v, i) => term_loop fuel toks i v env
termination_by structural fuel

/-- The `while tokens[idx] == "AND"` loop of `parse_term`. -/
def term_loop (fuel : Nat) (toks : List (List Char)) (idx : Nat) (v : Bool) (env : MailEnv) :
    Except String (Bool × Nat) :=
  match fuel with
  | 0 => .error "out of fuel"
  | fuel + 1 =>
    if idx < toks.length ∧ toks.getD idx [] = "AND".toList then
      match parse_factor fuel toks (idx + 1) env with
      | .error e => .error e
      | .ok (rhs, i) => term_loop fuel toks i (v && rhs) env
    else .ok (v, idx)
termination_by structural fuel

end

/-- The fuel `parse_and_eval` hands its parser: more than any run can
consume, since every unit of depth either consumes a token or is one
of the at most three grammar levels above a consumed token. -/
def ruleFuel (toks : List (List Char)) : Nat := 8 * toks.length + 8

/-- Model of the POP3 `parse_and_eval` (source lines 239–350): tokenize,
accept everything when no token remains, otherwise the value of the
first top-level expression — any unconsumed tokens after it are
ignored. -/
def parse_and_eval (rule : List Char) (env : MailEnv) : Except String Bool :=
  let tokens := tokenize rule
  if tokens.isEmpty then .ok true
  else
    match parse_expr (ruleFuel tokens) tokens 0 env with
    | .error e => .error e
    | .ok (v, _) => .ok v

/-- Model of the per-message filter step of `main` (source lines
499–517): a message is written to the CSV only when the rule evaluates
true; an evaluation error is caught and the message is skipped. -/
def includeDecision (rule : List Char) (env : MailEnv) : Bool :=
  match parse_and_eval rule env with
  | .ok b => b
  | .error _ => false

end Pop

/-! ## The EML entry point's filter engine

Model of `parse_and_eval` in `getMailDataCsvFromEml.py` (lines
226–299).  Same grammar, but the loops are written `val = val or
parse_term()` and `val = val and parse_factor()`: Python short-circuits
the right-hand call, so once the left operand decides the result the
right operand's tokens are not consumed.  Also, this engine's `SUBJECT`
guard tests `tok.upper()` (case-insensitive) and a failed group match
falls back to the empty pattern instead of raising. -/

namespace Eml

mutual

/-- One factor (source lines 247–298). -/
def parse_factor (fuel : Nat) (toks : List (List Char)) (idx : Nat) (env : MailEnv) :
    Except String (Bool × Nat) :=
  match fuel with
  | 0 => .error "out of fuel"
  | fuel + 1 =>
    if idx < toks.length then
      let tok := toks.getD idx []
      if tok == "(".toList then
        match parse_expr fuel toks (idx + 1) env with
        | .error e => .error e
        | .ok (v, i) =>
          if i < toks.length ∧ toks.getD i [] = ")".toList then .ok (v, i + 1)
          else .error "Missing closing parenthesis in filter rule"
      else if ciStarts "SUBJECT:/".toList tok && endsWithC '/' tok then
        let pat := (extractPat 9 tok).getD []
        match reSearchPat pat env.subject with
        | none => .ok (false, idx + 1)
        | some b => .ok (b, idx + 1)
      else if ciStarts "FROM:/".toList tok && endsWithC '/' tok then
        let pat := (extractPat 6 tok).getD []
        match reCompile pat with
        | none => .ok (false, idx + 1)
        | some r => .ok (env.fromAddrs.any (fun a => reSearchNode r a), idx + 1)
      else if ciStarts "TO:/".toList tok && endsWithC '/' tok then
        let pat := (extractPat 4 tok).getD []
        match reCompile pat with
        | none => .ok (false, idx + 1)
        | some r => .ok (env.toAddrs.any (fun a => reSearchNode r a), idx + 1)
      else if ciStarts "CC:/".toList tok && endsWithC '/' tok then
        let pat := (extractPat 4 tok).getD []
        match reCompile pat with
        | none => .ok (false, idx + 1)
        | some r => .ok (env.ccAddrs.any (fun a => reSearchNode r a), idx + 1)
      else if ciStarts "DATE".toList tok then
        match eval_date_token tok env.mailDt env.now with
        | .error e => .error e
        | .ok ok => .ok (ok, idx + 1)
      else .error ("Unexpected token: " ++ String.mk tok)
    else .error "Unexpected end of filter rule"
termination_by structural fuel

/-- Expression level (source lines 233–239), with Python's
short-circuit: when the left operand is already true the right term is
not parsed and its tokens stay unconsumed. -/
def parse_expr (fuel : Nat) (toks : List (List Char)) (idx : Nat) (env : MailEnv) :
    Except String (Bool × Nat) :=
  match fuel with
  | 0 => .error "out of fuel"
  | fuel + 1 =>
    match parse_term fuel toks idx env with
    | .error e => .error e
    | .ok (v, i) => expr_loop fuel toks i v env
termination_by structural fuel

/-- The `while ... == "OR"` loop with `val = val or parse_term()`. -/
def expr_loop (fuel : Nat) (toks : List (List Char)) (idx : Nat) (v : Bool) (env : MailEnv) :
    Except String (Bool × Nat) :=
  match fuel with
  | 0 => .error "out of fuel"
  | fuel + 1 =>
    if idx < toks.length ∧ toks.getD idx [] = "OR".toList then
      if v then expr_loop fuel toks (idx + 1) v env
      else
        match parse_term fuel toks (idx + 1) env with
        | .error e => .error e
        | .ok (rhs, i) => expr_loop fuel toks i (v || rhs) env
    else .ok (v, idx)
termination_by structural fuel

/-- Term level (source lines 240–246), with the dual short-circuit. -/
def parse_term (fuel : Nat) (toks : List (List Char)) (idx : Nat) (env : MailEnv) :
    Except String (Bool × Nat) :=
  match fuel with
  | 0 => .error "out of fuel"
  | fuel + 1 =>
    match parse_factor fuel toks idx env with
    | .error e => .error e
    | .ok (v, i) => term_loop fuel toks i v env
termination_by structural fuel

/-- The `while ... == "AND"` loop with `val = val and parse_factor()`. -/
def term_loop (fuel : Nat) (toks : List (List Char)) (idx : Nat) (v : Bool) (env : MailEnv) :
    Except String (Bool × Nat) :=
  match fuel with
  | 0 => .error "out of fuel"
  | fuel + 1 =>
    if idx < toks.length ∧ toks.getD idx [] = "AND".toList then
      if v then
        match parse_factor fuel toks (idx + 1) env with
        | .error e => .error e
        | .ok (rhs, i) => term_loop fuel toks i (v && rhs) env
      else term_loop fuel toks (idx + 1) v env
    else .ok (v, idx)
termination_by structural fuel

end

/-- Model of the EML `parse_and_eval` (source lines 226–299). -/
def parse_and_eval (rule : List Char) (env : MailEnv) : Except String Bool :=
  let tokens := tokenize rule
  if tokens.isEmpty then .ok true
  else
    match parse_expr (Pop.ruleFuel tokens) tokens 0 env with
    | .error e => .error e
    | .ok (v, _) => .ok v

/-- Model of the per-message filter step of the EML `main` (source
lines 359–374): include only on a true evaluation, exclude on error. -/
def includeDecision (rule : List Char) (env : MailEnv) : Bool :=
  match parse_and_eval rule env with
  | .ok b => b
  | .error _ => false

end Eml

/-- A convenient concrete record for evaluation checks. -/
def envWith (subject : String) : MailEnv :=
  ⟨subject.toList, [], [], [], none, 0⟩

example : Pop.parse_and_eval "SUBJECT:/a/ AND SUBJECT:/b/ OR SUBJECT:/c/".toList
    (envWith "c") = .ok true := by decide

example : Eml.parse_and_eval "SUBJECT:/a/ AND SUBJECT:/b/ OR SUBJECT:/c/".toList
    (envWith "c") = .ok false := by decide

example : Pop.parse_and_eval "(SUBJECT:/a/ OR SUBJECT:/b/) AND SUBJECT:/c/".toList
    (envWith "a") = .ok false := by decide

example : Eml.parse_and_eval "(SUBJECT:/a/ OR SUBJECT:/b/) AND SUBJECT:/c/".toList
    (envWith "a") = .error "Missing closing parenthesis in filter rule" := by decide

example : Pop.parse_and_eval "SUBJECT:/a/ )".toList (envWith "apple") = .ok true := by decide

example : Pop.parse_and_eval "(SUBJECT:/a/ AND SUBJECT:/b/".toList (envWith "x") =
    .error "Missing closing parenthesis in filter rule" := by decide

example : Pop.parse_and_eval "SUBJECT:/a/ AND".toList (envWith "x") =
    .error "Unexpected end of filter rule" := by decide

example : Pop.parse_and_eval ") SUBJECT:/a/".toList (envWith "x") =
    .error "Unexpected token: )" := by decide

example : Pop.parse_and_eval "".toList (envWith "x") = .ok true := by decide

example : Pop.parse_and_eval "SUBJECT:/(/".toList (envWith "x(y") = .ok false := by decide

/-! ## HTML as a tree

`sanitize_html` and the BeautifulSoup branch of `html_to_text` operate
on the parsed document: `soup.find_all("img")` walks every image
element and `img.decompose()` removes its whole subtree.  The tree is
embedded as a mutual inductive (so that every traversal is structural
and reduces in the kernel); BeautifulSoup's parsing of a byte string
into this tree and `str(soup)` back out are the environment's.  An
element's `img.get(name, "0")` is the first attribute of that name or
the default. -/

mutual

inductive HNode where
  | htext (s : List Char)
  | helem (tag : List Char) (attrs : List (List Char × List Char)) (children : HForest)

inductive HForest where
  | hnil
  | hcons (n : HNode) (f : HForest)

end

/-- Model of Python `int(str)` on ASCII input: optional surrounding
whitespace, an optional sign, then digits with single underscores
allowed between digits; everything else raises `ValueError`. -/
def digitsUnd : List Char → Bool
  | [] => false
  | [c] => isDigitC c
  | c :: '_' :: rest => isDigitC c && digitsUnd rest
  | c :: rest => isDigitC c && digitsUnd rest

/-- Model of `int(...)` (see `digitsUnd`). -/
def pyInt (l : List Char) : Except Unit Int :=
  match pyStrip l with
  | '+' :: r => if digitsUnd r then .ok (digitsVal (r.filter (· != '_')) : Nat) else .error ()
  | '-' :: r =>
    if digitsUnd r then .ok (-(digitsVal (r.filter (· != '_')) : Nat) : Int) else .error ()
  | r => if digitsUnd r then .ok (digitsVal (r.filter (· != '_')) : Nat) else .error ()

/-- First attribute of the given name, or the default (model of
`img.get(name, "0")`). -/
def attrGet (attrs : List (List Char × List Char)) (name dflt : List Char) : List Char :=
  match attrs.find? (fun p => p.1 == name) with
  | some p => p.2
  | none => dflt

/-- The tracking-pixel test of `sanitize_html` / `html_to_text` (lines
146–150 / 121–124): `w = int(img.get("width", "0")); h = int(...); (w
and w <= 1) or (h and h <= 1)`, the whole pair inside one `try` — if
either attribute fails to parse the exception skips the check and the
element is kept, and a parsed `0` is falsy and never triggers
removal. -/
def pixelRemovable (attrs : List (List Char × List Char)) : Bool :=
  match pyInt (attrGet attrs "width".toList "0".toList) with
  | .error _ => false
  | .ok w =>
    match pyInt (attrGet attrs "height".toList "0".toList) with
    | .error _ => false
    | .ok h => (w != 0 && decide (w ≤ 1)) || (h != 0 && decide (h ≤ 1))

mutual

/-- Model of the `for img in soup.find_all("img"): ... img.decompose()`
loop on one node: `none` when the node is a removed image. -/
def removePixelsN : HNode → Option HNode
  | .htext s => some (.htext s)
  | .helem tag attrs children =>
    if tag == "img".toList && pixelRemovable attrs then none
    else some (.helem tag attrs (removePixelsF children))

/-- The same loop on a forest of siblings. -/
def removePixelsF : HForest → HForest
  | .hnil => .hnil
  | .hcons n f =>
    match removePixelsN n with
    | none => removePixelsF f
    | some m => .hcons m (removePixelsF f)

end

/-- Model of `sanitize_html` (BeautifulSoup branch, source lines
139–153) at tree level: remove every tracking-pixel image, return the
document. -/
def sanitize_html (doc : HForest) : HForest := removePixelsF doc

mutual

/-- Is there, anywhere in the node, an image element whose parsed
width or height triggers removal? -/
def badImgN : HNode → Bool
  | .htext _ => false
  | .helem tag attrs children =>
    (tag == "img".toList && pixelRemovable attrs) || badImgF children

/-- The forest version of `badImgN`. -/
def badImgF : HForest → Bool
  | .hnil => false
  | .hcons n f => badImgN n || badImgF f

end

mutual

/-- Number of image elements in a node's subtree. -/
def imgCountN : HNode → Nat
  | .htext _ => 0
  | .helem tag _ children => (if tag == "img".toList then 1 else 0) + imgCountF children

/-- Number of image elements in a forest. -/
def imgCountF : HForest → Nat
  | .hnil => 0
  | .hcons n f => imgCountN n + imgCountF f

end

mutual

/-- All text strings of a node in document order (`soup.get_text`). -/
def textsN : HNode → List (List Char)
  | .htext s => [s]
  | .helem _ _ children => textsF children

/-- All text strings of a forest. -/
def textsF : HForest → List (List Char)
  | .hnil => []
  | .hcons n f => textsN n ++ textsF f

end

/-- A first-character index of a case-insensitive occurrence. -/
def findCi (pat : List Char) : List Char → Option Nat
  | [] => if pat == [] then some 0 else none
  | c :: cs => if ciStarts pat (c :: cs) then some 0 else (findCi pat cs).map (· + 1)

/-- A minimal HTML-entity decoder: the five XML entities, `&nbsp;` and
numeric references (model of `html.unescape` on the entities mail
bodies use; an out-of-range numeric reference becomes U+FFFD). -/
def unescapeL (fuel : Nat) (cs : List Char) : List Char :=
  match fuel, cs with
  | 0, rest => rest
  | _, [] => []
  | fuel + 1, '&' :: cs' =>
    if litStarts "amp;".toList cs' then '&' :: unescapeL fuel (cs'.drop 4)
    else if litStarts "lt;".toList cs' then '<' :: unescapeL fuel (cs'.drop 3)
    else if litStarts "gt;".toList cs' then '>' :: unescapeL fuel (cs'.drop 3)
    else if litStarts "quot;".toList cs' then '"' :: unescapeL fuel (cs'.drop 5)
    else if litStarts "apos;".toList cs' then '\'' :: unescapeL fuel (cs'.drop 5)
    else if litStarts "nbsp;".toList cs' then '\xa0' :: unescapeL fuel (cs'.drop 5)
    else
      match cs' with
      | '#' :: r =>
        let ds := r.takeWhile isDigitC
        (match r.drop ds.length with
         | ';' :: rest2 =>
           if ds != [] then
             (if h : (digitsVal ds).isValidChar then Char.ofNatAux (digitsVal ds) h
              else '\ufffd') :: unescapeL fuel rest2
           else '&' :: unescapeL fuel cs'
         | _ => '&' :: unescapeL fuel cs')
      | _ => '&' :: unescapeL fuel cs'
  | fuel + 1, c :: cs' => c :: unescapeL fuel cs'

/-- Pass 1 of the fallback `html_to_text`:
`re.sub(r"<(script|style)[\s\S]*?</\1>", "", text, flags=re.I)` — a
`script`/`style` open tag through its nearest matching close is
removed; an open with no close matches nothing and stays. -/
def removeScriptStyle (fuel : Nat) (cs : List Char) : List Char :=
  match fuel, cs with
  | 0, rest => rest
  | _, [] => []
  | fuel + 1, c :: cs' =>
    if ciStarts "<script".toList (c :: cs') then
      match findCi "</script>".toList (cs'.drop 6) with
      | some j => removeScriptStyle fuel ((cs'.drop 6).drop (j + 9))
      | none => c :: removeScriptStyle fuel cs'
    else if ciStarts "<style".toList (c :: cs') then
      match findCi "</style>".toList (cs'.drop 5) with
      | some j => removeScriptStyle fuel ((cs'.drop 5).drop (j + 8))
      | none => c :: removeScriptStyle fuel cs'
    else c :: removeScriptStyle fuel cs'

/-- Pass 2: `re.sub(r"<br\s*/?>", "\n", text, flags=re.I)`. -/
def brSub (fuel : Nat) (cs : List Char) : List Char :=
  match fuel, cs with
  | 0, rest => rest
  | _, [] => []
  | fuel + 1, c :: cs' =>
    if ciStarts "<br".toList (c :: cs') then
      let r := cs'.drop 2
      let r2 := r.drop (r.takeWhile isPySpaceC).length
      match r2 with
      | '/' :: '>' :: rest => '\n' :: brSub fuel rest
      | '>' :: rest => '\n' :: brSub fuel rest
      | _ => c :: brSub fuel cs'
    else c :: brSub fuel cs'

/-- Pass 3: `re.sub(r"</p\s*>", "\n\n", text, flags=re.I)`. -/
def pSub (fuel : Nat) (cs : List Char) : List Char :=
  match fuel, cs with
  | 0, rest => rest
  | _, [] => []
  | fuel + 1, c :: cs' =>
    if ciStarts "</p".toList (c :: cs') then
      let r := cs'.drop 2
      let r2 := r.drop (r.takeWhile isPySpaceC).length
      match r2 with
      | '>' :: rest => '\n' :: '\n' :: pSub fuel rest
      | _ => c :: pSub fuel cs'
    else c :: pSub fuel cs'

/-- Pass 4: `re.sub(r"<[^>]+>", "", text)` — a `<`, at least one
non-`>` character, then `>`. -/
def tagSub (fuel : Nat) (cs : List Char) : List Char :=
  match fuel, cs with
  | 0, rest => rest
  | _, [] => []
  | fuel + 1, '<' :: cs' =>
    (match cs'.findIdx? (· == '>') with
     | some j => if 1 ≤ j then tagSub fuel (cs'.drop (j + 1)) else '<' :: tagSub fuel cs'
     | none => '<' :: tagSub fuel cs')
  | fuel + 1, c :: cs' => c :: tagSub fuel cs'

/-- Model of `html_to_text` (source lines 113–137), in its regex
fallback branch (lines 130–137): strip script/style blocks, `<br>` to
newline, paragraph close to blank line, remove remaining tags,
unescape entities, trim.  (The BeautifulSoup branch is
`html_to_text_soup` below, on the parsed tree.) -/
def html_to_text (html : List Char) : List Char :=
  if html == [] then []
  else
    let t1 := removeScriptStyle (html.length + 1) html
    let t2 := brSub (t1.length + 1) t1
    let t3 := pSub (t2.length + 1) t2
    let t4 := tagSub (t3.length + 1) t3
    pyStrip (unescapeL (t4.length + 1) t4)

/-- Model of the BeautifulSoup branch of `html_to_text` (source lines
117–129) at tree level: remove tracking pixels, join all text with
newlines (`soup.get_text("\n")`), unescape, trim. -/
def html_to_text_soup (doc : HForest) : List Char :=
  let texts := textsF (removePixelsF doc)
  let joined := List.intercalate ['\n'] texts
  pyStrip (unescapeL (joined.length + 1) joined)

example : html_to_text "<p>Hi</p>".toList = "Hi".toList := by decide

example :
    html_to_text "<style>p .x</style>Hello<br>world".toList =
    "Hello\nworld".toList := by decide

/-! ## Body extraction

Model of the body-selection loop of `main` (`getMailDataCsv.py` lines
519–553, and identically `getMailDataCsvFromEml.py` lines 376–409).  A
part carries its content type, optional content disposition, and its
decoded payload (the byte decoding with declared-charset /
UTF-8-with-replacement fallback happens in the environment's codecs
and is modeled as the given decoded string). -/

structure MailPart where
  ctype : List Char
  disposition : Option (List Char)
  content : List Char

/-- A message body: a multipart walk or a single flat part. -/
inductive MsgBody where
  | multi (parts : List MailPart)
  | single (p : MailPart)

/-- The `attachment` disposition string. -/
def attachmentS : List Char := "attachment".toList

/-- The `text/plain` content type. -/
def textPlainS : List Char := "text/plain".toList

/-- The `text/html` content type. -/
def textHtmlS : List Char := "text/html".toList

/-- The walk over parts: skip attachments; the first `text/plain` part
(stripped) and the first `text/html` part win, later ones are
ignored. -/
def walkFold : List MailPart → Option (List Char) → Option (List Char) →
    Option (List Char) × Option (List Char)
  | [], tb, hb => (tb, hb)
  | p :: rest, tb, hb =>
    if p.disposition == some attachmentS then walkFold rest tb hb
    else if p.ctype == textPlainS && tb == none then
      walkFold rest (some (pyStrip p.content)) hb
    else if p.ctype == textHtmlS && hb == none then
      walkFold rest tb (some p.content)
    else walkFold rest tb hb

/-- The text/html body candidates of a message (source lines 520–547). -/
def extract_bodies : MsgBody → Option (List Char) × Option (List Char)
  | .multi parts => walkFold parts none none
  | .single p =>
    if p.ctype == textPlainS then (some (pyStrip p.content), none)
    else if p.ctype == textHtmlS then (none, some p.content)
    else (none, none)

/-- The fallback step `if not text_body and html_raw: text_body =
html_to_text(html_raw)` (source lines 549–551): Python falsiness makes
an *empty* plain body trigger the HTML conversion too. -/
def textBodyFinal (tb hb : Option (List Char)) : Option (List Char) :=
  if (tb == none || tb == some []) && !(hb == none || hb == some []) then
    some (html_to_text (hb.getD []))
  else tb

/-- The text field written to the CSV row (`text_body or ""`). -/
def textField (m : MsgBody) : List Char :=
  let (tb, hb) := extract_bodies m
  (textBodyFinal tb hb).getD []

example :
    textField (.multi [⟨"text/plain".toList, none, "Hello".toList⟩,
                       ⟨"text/html".toList, none, "<p>Hi</p>".toList⟩]) =
    "Hello".toList := by decide

example :
    textField (.multi [⟨"text/plain".toList, none, "  ".toList⟩,
                       ⟨"text/html".toList, none, "<p>Hi</p>".toList⟩]) =
    "Hi".toList := by decide

/-! ## SHA-1 and the EML identity key

Model of `hashlib.sha1(msg_bytes).hexdigest()`: the full FIPS 180-1
algorithm on a list of bytes, with 32-bit words as `Nat` reduced
modulo `2 ^ 32`. -/

/-- Left rotation of a 32-bit word. -/
def rotl32 (n x : Nat) : Nat := (x * 2 ^ n + x / 2 ^ (32 - n)) % 4294967296

/-- Bitwise complement of a 32-bit word. -/
def not32 (x : Nat) : Nat := 4294967295 - x

/-- Big-endian bytes of a number, fixed width. -/
def beBytes (w n : Nat) : List Nat := (List.range w).map (fun i => n / 2 ^ (8 * (w - 1 - i)) % 256)

/-- Merkle–Damgård padding: `0x80`, zeros to 56 mod 64, then the
bit length as eight big-endian bytes. -/
def sha1pad (msg : List Nat) : List Nat :=
  msg ++ [128] ++ List.replicate ((55 + 64 - msg.length % 64) % 64) 0 ++ beBytes 8 (8 * msg.length)

/-- The sixteen big-endian words of one 64-byte block. -/
def blockWords (b : List Nat) : List Nat :=
  (List.range 16).map (fun i =>
    (b.getD (4 * i) 0) * 16777216 + (b.getD (4 * i + 1) 0) * 65536 +
    (b.getD (4 * i + 2) 0) * 256 + b.getD (4 * i + 3) 0)

/-- The 80-word message schedule. -/
def sha1schedule (ws : List Nat) : List Nat :=
  (List.range 64).foldl
    (fun acc _ =>
      acc ++ [rotl32 1 (Nat.xor
        (Nat.xor (acc.getD (acc.length - 3) 0) (acc.getD (acc.length - 8) 0))
        (Nat.xor (acc.getD (acc.length - 14) 0) (acc.getD (acc.length - 16) 0)))])
    ws

/-- The round function. -/
def sha1f (t b c d : Nat) : Nat :=
  if t < 20 then Nat.lor (Nat.land b c) (Nat.land (not32 b) d)
  else if t < 40 then Nat.xor (Nat.xor b c) d
  else if t < 60 then Nat.lor (Nat.lor (Nat.land b c) (Nat.land b d)) (Nat.land c d)
  else Nat.xor (Nat.xor b c) d

/-- The round constants. -/
def sha1k (t : Nat) : Nat :=
  if t < 20 then 1518500249
  else if t < 40 then 1859775393
  else if t < 60 then 2400959708
  else 3395469782

/-- Compression of one block into the running state. -/
def sha1block (st : Nat × Nat × Nat × Nat × Nat) (blk : List Nat) :
    Nat × Nat × Nat × Nat × Nat :=
  let w := sha1schedule (blockWords blk)
  let (h0, h1, h2, h3, h4) := st
  let fin := (List.range 80).foldl
    (fun s t =>
      let (a, b, c, d, e) := s
      let tmp := (rotl32 5 a + sha1f t b c d + e + sha1k t + w.getD t 0) % 4294967296
      (tmp, a, rotl32 30 b, c, d))
    (h0, h1, h2, h3, h4)
  let (a, b, c, d, e) := fin
  ((h0 + a) % 4294967296, (h1 + b) % 4294967296, (h2 + c) % 4294967296,
   (h3 + d) % 4294967296, (h4 + e) % 4294967296)

/-- The padded message cut into 64-byte blocks. -/
def chunks64 (fuel : Nat) (l : List Nat) : List (List Nat) :=
  match fuel, l with
  | 0, _ => []
  | _, [] => []
  | fuel + 1, l => l.take 64 :: chunks64 fuel (l.drop 64)

/-- One lowercase hex digit. -/
def hexDigit (v : Nat) : Char := if v < 10 then Char.ofNat (48 + v) else Char.ofNat (87 + v)

/-- Fixed-width lowercase hex. -/
def toHexFixed (w x : Nat) : List Char := (List.range w).map (fun i => hexDigit (x / 16 ^ (w - 1 - i) % 16))

/-- Model of `hashlib.sha1(bytes).hexdigest()`. -/
def sha1hex (msg : List Nat) : List Char :=
  let padded := sha1pad msg
  let st := (chunks64 (padded.length + 1) padded).foldl sha1block
    (1732584193, 4023233417, 2562383102, 271733878, 3285377520)
  let (h0, h1, h2, h3, h4) := st
  toHexFixed 8 h0 ++ toHexFixed 8 h1 ++ toHexFixed 8 h2 ++ toHexFixed 8 h3 ++ toHexFixed 8 h4

/-- Model of `make_uidl_for_eml` (`getMailDataCsvFromEml.py` lines
308–313): the Message-Id header value — `msg.get` is case-insensitive,
so the two lookups collapse to one optional value — stripped of
surrounding whitespace; when absent or blank, the labeled content hash
`"SHA1-" + sha1(raw).hexdigest()`. -/
def make_uidl_for_eml (msg_bytes : List Nat) (messageId : Option (List Char)) : List Char :=
  let mid := pyStrip (messageId.getD [])
  if mid != [] then mid else "SHA1-".toList ++ sha1hex msg_bytes

set_option maxRecDepth 20000 in
example : sha1hex [97, 98, 99] = "a9993e364706816aba3e25717850c26c9cd0d89d".toList := by
  decide

example : make_uidl_for_eml [] (some " <a@b> ".toList) = "<a@b>".toList := by decide

/-! ## Helper lemmas -/

theorem ciEqC_refl (c : Char) : ciEqC c c = true := by simp [ciEqC]

theorem litStarts_append (p r : List Char) : litStarts p (p ++ r) = true := by
  induction p with
  | nil => rfl
  | cons c cs ih => simp [litStarts, ih]

theorem ciStarts_append (p r : List Char) : ciStarts p (p ++ r) = true := by
  induction p with
  | nil => rfl
  | cons c cs ih => simp [ciStarts, ciEqC_refl, ih]

theorem endsWithC_concat (c : Char) (l : List Char) : endsWithC c (l ++ [c]) = true := by
  simp [endsWithC, List.getLast?_concat]

theorem extractPat_pfx (pfx pat : List Char) :
    extractPat pfx.length (pfx ++ pat ++ ['/']) = some pat := by
  have hassoc : pfx ++ pat ++ ['/'] = pfx ++ (pat ++ ['/']) := by simp
  unfold extractPat
  rw [if_pos]
  · rw [hassoc, List.drop_left, List.dropLast_concat]
  · refine ⟨?_, ?_⟩
    · simp
    · rw [hassoc, ← List.append_assoc, List.getLast?_concat]

theorem pop_factor_invalid_subj (fuel : Nat) (pat : List Char) (env : MailEnv)
    (hc : reCompile pat = none) :
    Pop.parse_factor (fuel + 1) ["SUBJECT:/".toList ++ pat ++ ['/']] 0 env = .ok (false, 1) := by
  have h1 : endsWithC '/' ('S' :: 'U' :: 'B' :: 'J' :: 'E' :: 'C' :: 'T' :: ':' :: '/' ::
      (pat ++ ['/'])) = true :=
    endsWithC_concat '/' ('S' :: 'U' :: 'B' :: 'J' :: 'E' :: 'C' :: 'T' :: ':' :: '/' :: pat)
  have h4 : extractPat 9 ('S' :: 'U' :: 'B' :: 'J' :: 'E' :: 'C' :: 'T' :: ':' :: '/' ::
      (pat ++ ['/'])) = some pat :=
    extractPat_pfx ['S', 'U', 'B', 'J', 'E', 'C', 'T', ':', '/'] pat
  simp [Pop.parse_factor, litStarts, ciStarts, ciEqC, lowerN, h1, h4, hc, reSearchPat,
    List.getD]

theorem pop_factor_invalid_from (fuel : Nat) (pat : List Char) (env : MailEnv)
    (hc : reCompile pat = none) :
    Pop.parse_factor (fuel + 1) ["FROM:/".toList ++ pat ++ ['/']] 0 env = .ok (false, 1) := by
  have h1 : endsWithC '/' ('F' :: 'R' :: 'O' :: 'M' :: ':' :: '/' :: (pat ++ ['/'])) = true :=
    endsWithC_concat '/' ('F' :: 'R' :: 'O' :: 'M' :: ':' :: '/' :: pat)
  have h4 : extractPat 6 ('F' :: 'R' :: 'O' :: 'M' :: ':' :: '/' :: (pat ++ ['/'])) =
      some pat :=
    extractPat_pfx ['F', 'R', 'O', 'M', ':', '/'] pat
  simp [Pop.parse_factor, litStarts, ciStarts, ciEqC, lowerN, h1, h4, hc, List.getD]

theorem pop_factor_invalid_to (fuel : Nat) (pat : List Char) (env : MailEnv)
    (hc : reCompile pat = none) :
    Pop.parse_factor (fuel + 1) ["TO:/".toList ++ pat ++ ['/']] 0 env = .ok (false, 1) := by
  have h1 : endsWithC '/' ('T' :: 'O' :: ':' :: '/' :: (pat ++ ['/'])) = true :=
    endsWithC_concat '/' ('T' :: 'O' :: ':' :: '/' :: pat)
  have h4 : extractPat 4 ('T' :: 'O' :: ':' :: '/' :: (pat ++ ['/'])) = some pat :=
    extractPat_pfx ['T', 'O', ':', '/'] pat
  simp [Pop.parse_factor, litStarts, ciStarts, ciEqC, lowerN, h1, h4, hc, List.getD]

theorem pop_factor_invalid_cc (fuel : Nat) (pat : List Char) (env : MailEnv)
    (hc : reCompile pat = none) :
    Pop.parse_factor (fuel + 1) ["CC:/".toList ++ pat ++ ['/']] 0 env = .ok (false, 1) := by
  have h1 : endsWithC '/' ('C' :: 'C' :: ':' :: '/' :: (pat ++ ['/'])) = true :=
    endsWithC_concat '/' ('C' :: 'C' :: ':' :: '/' :: pat)
  have h4 : extractPat 4 ('C' :: 'C' :: ':' :: '/' :: (pat ++ ['/'])) = some pat :=
    extractPat_pfx ['C', 'C', ':', '/'] pat
  simp [Pop.parse_factor, litStarts, ciStarts, ciEqC, lowerN, h1, h4, hc, List.getD]

/-! ## The claims -/

/-- C4: for every DATE predicate token — hence every comparator and
every right-hand side, absolute, timestamp or NOW-relative — and every
clock, `eval_date_token` (the function shared verbatim by both entry
points) returns false when the record's timestamp is absent
(`mail_dt is None`). -/
theorem C4_date_absent_false :
    ∀ (token : List Char) (now : Int), eval_date_token token none now = .ok false := by
  intro token now
  unfold eval_date_token
  rcases hm : matchDateToken token with _ | ⟨op, rhs⟩ <;> simp

/-- C5: a `SUBJECT`/`FROM`/`TO`/`CC` predicate whose pattern between
the slashes does not compile evaluates to false — `.ok`, never an
error — for every record, both at factor level for an arbitrary
non-compiling pattern and through the whole engine for the concrete
invalid pattern `(`. -/
theorem C5_invalid_regex_false :
    ∀ (pat : List Char) (env : MailEnv) (fuel : Nat), reCompile pat = none →
      Pop.parse_factor (fuel + 1) ["SUBJECT:/".toList ++ pat ++ ['/']] 0 env = .ok (false, 1) ∧
      Pop.parse_factor (fuel + 1) ["FROM:/".toList ++ pat ++ ['/']] 0 env = .ok (false, 1) ∧
      Pop.parse_factor (fuel + 1) ["TO:/".toList ++ pat ++ ['/']] 0 env = .ok (false, 1) ∧
      Pop.parse_factor (fuel + 1) ["CC:/".toList ++ pat ++ ['/']] 0 env = .ok (false, 1) ∧
      Pop.parse_and_eval "SUBJECT:/(/".toList env = .ok false ∧
      Pop.parse_and_eval "FROM:/(/".toList env = .ok false ∧
      Pop.parse_and_eval "TO:/(/".toList env = .ok false ∧
      Pop.parse_and_eval "CC:/(/".toList env = .ok false := by
  intro pat env fuel hc
  exact ⟨pop_factor_invalid_subj fuel pat env hc, pop_factor_invalid_from fuel pat env hc,
    pop_factor_invalid_to fuel pat env hc, pop_factor_invalid_cc fuel pat env hc,
    rfl, rfl, rfl, rfl⟩

/-- The C5 theorem applied at the concrete non-compiling pattern `(`
and a concrete record. -/
theorem C5_invalid_regex_false_witness :
    reCompile "(".toList = none ∧
    Pop.parse_factor 1 ["SUBJECT:/(/".toList] 0 (envWith "x") = .ok (false, 1) :=
  ⟨by decide, (C5_invalid_regex_false "(".toList (envWith "x") 0 (by decide)).1⟩

/-- C1: the two filter engines are not equivalent.  On the well-formed
rule `SUBJECT:/a/ AND SUBJECT:/b/ OR SUBJECT:/c/` and a record whose
subject is `c` (so A = false, B = false, C = true), the POP3 engine
returns true — false AND false, OR true — while the EML engine returns
false: its short-circuit `val = val and parse_factor()` skips the
right operand's token without consuming it, so the `OR SUBJECT:/c/`
tail is never parsed. -/
theorem C1_engines_diverge :
    Pop.parse_and_eval "SUBJECT:/a/ AND SUBJECT:/b/ OR SUBJECT:/c/".toList (envWith "c") =
      .ok true ∧
    Eml.parse_and_eval "SUBJECT:/a/ AND SUBJECT:/b/ OR SUBJECT:/c/".toList (envWith "c") =
      .ok false := by
  constructor
  · decide
  · decide

/-- C2, counterexample: `SUBJECT:/a/ )` has an unbalanced closing
parenthesis, yet the POP3 engine does not raise — the trailing `)` is
ignored — and a record whose subject matches is included, not
excluded. -/
theorem C2_stray_paren_included :
    Pop.parse_and_eval "SUBJECT:/a/ )".toList (envWith "apple") = .ok true ∧
    Pop.includeDecision "SUBJECT:/a/ )".toList (envWith "apple") = true := by
  constructor
  · decide
  · decide

/-- C2, amended: the malformed shapes the parser can see — an unclosed
`(`, a dangling operator, an unexpected token where a factor is
expected, premature end of input — raise a descriptive error, and the
per-message loop then excludes the message, for every record.  (A
stray token after a complete top-level expression, such as a trailing
`)`, is ignored instead — see the counterexample and C10.) -/
theorem C2_malformed_fail_closed :
    ∀ env : MailEnv,
      (Pop.parse_and_eval "(SUBJECT:/a/ AND SUBJECT:/b/".toList env =
          .error "Missing closing parenthesis in filter rule" ∧
        Pop.includeDecision "(SUBJECT:/a/ AND SUBJECT:/b/".toList env = false) ∧
      (Pop.parse_and_eval "SUBJECT:/a/ AND".toList env =
          .error "Unexpected end of filter rule" ∧
        Pop.includeDecision "SUBJECT:/a/ AND".toList env = false) ∧
      (Pop.parse_and_eval ") SUBJECT:/a/".toList env = .error "Unexpected token: )" ∧
        Pop.includeDecision ") SUBJECT:/a/".toList env = false) ∧
      (Pop.parse_and_eval "( )".toList env = .error "Unexpected token: )" ∧
        Pop.includeDecision "( )".toList env = false) := by
  intro env
  exact ⟨⟨rfl, rfl⟩, ⟨rfl, rfl⟩, ⟨rfl, rfl⟩, ⟨rfl, rfl⟩⟩

/-- C3: AND binds tighter than OR.  In the POP3 engine `A OR B AND C`
evaluates as `A OR (B AND C)` — false for A=false, B=true, C=false;
true for A=true, B=false, C=false — and `(A OR B) AND C` is false for
A=true, B=false, C=false, exactly as claimed.  The EML engine agrees
on the unparenthesized rule but on `(A OR B) AND C` with A=true it
raises instead of returning false: after the short-circuited `OR` the
unconsumed `SUBJECT:/b/` token sits where `)` is expected.  Predicates
are realised as subject regexes with subjects `b` (A=false, B=true,
C=false) and `a` (A=true, B=false, C=false). -/
theorem C3_precedence_pop_eml :
    Pop.parse_and_eval "SUBJECT:/a/ OR SUBJECT:/b/ AND SUBJECT:/c/".toList (envWith "b") =
      .ok false ∧
    Pop.parse_and_eval "SUBJECT:/a/ OR SUBJECT:/b/ AND SUBJECT:/c/".toList (envWith "a") =
      .ok true ∧
    Pop.parse_and_eval "(SUBJECT:/a/ OR SUBJECT:/b/) AND SUBJECT:/c/".toList (envWith "a") =
      .ok false ∧
    Eml.parse_and_eval "SUBJECT:/a/ OR SUBJECT:/b/ AND SUBJECT:/c/".toList (envWith "b") =
      .ok false ∧
    Eml.parse_and_eval "SUBJECT:/a/ OR SUBJECT:/b/ AND SUBJECT:/c/".toList (envWith "a") =
      .ok true ∧
    Eml.parse_and_eval "(SUBJECT:/a/ OR SUBJECT:/b/) AND SUBJECT:/c/".toList (envWith "a") =
      .error "Missing closing parenthesis in filter rule" := by
  refine ⟨by decide, by decide, by decide, by decide, by decide, by decide⟩

/-- C10: `parse_and_eval` returns the value of the first complete
top-level expression and ignores any remaining tokens: whenever
`parse_expr` succeeds on the token list, the engine returns its value
whatever index it stopped at; concretely a stray trailing `)`, a
lowercase `and` (which tokenizes but is not the exact uppercase
operator string), or a juxtaposed second predicate all leave the
result that of the first predicate alone, without error. -/
theorem C10_trailing_tokens_ignored :
    (∀ (rule : List Char) (env : MailEnv) (b : Bool) (i : Nat),
        Pop.parse_expr (Pop.ruleFuel (tokenize rule)) (tokenize rule) 0 env = .ok (b, i) →
        Pop.parse_and_eval rule env = .ok b) ∧
    (∀ env : MailEnv,
        Pop.parse_and_eval "SUBJECT:/a/ )".toList env =
          Pop.parse_and_eval "SUBJECT:/a/".toList env ∧
        Pop.parse_and_eval "SUBJECT:/a/ and SUBJECT:/b/".toList env =
          Pop.parse_and_eval "SUBJECT:/a/".toList env ∧
        Pop.parse_and_eval "SUBJECT:/a/ SUBJECT:/b/".toList env =
          Pop.parse_and_eval "SUBJECT:/a/".toList env ∧
        Pop.parse_and_eval "SUBJECT:/a/".toList env =
          .ok ((reSearchPat "a".toList env.subject).getD false)) := by
  constructor
  · intro rule env b i h
    unfold Pop.parse_and_eval
    rcases htk : tokenize rule with _ | ⟨t, ts⟩
    · rw [htk] at h
      rw [show Pop.parse_expr (Pop.ruleFuel ([] : List (List Char))) [] 0 env =
          .error "Unexpected end of filter rule" from rfl] at h
      exact absurd h (by simp)
    · rw [htk] at h
      simp only [List.isEmpty_cons, if_false, Bool.false_eq_true, h]
  · intro env
    exact ⟨rfl, rfl, rfl, rfl⟩

/-- A character that can begin no token of `TOKEN_REGEX`: every
alternative starts, case-insensitively, with one of `s f t c d a o` or
a parenthesis. -/
def junkStartC (c : Char) : Bool :=
  !(lowerN c.toNat == 115 || lowerN c.toNat == 102 || lowerN c.toNat == 116 ||
    lowerN c.toNat == 99 || lowerN c.toNat == 100 || lowerN c.toNat == 97 ||
    lowerN c.toNat == 111 || c == '(' || c == ')')

theorem matchToken_junk (c : Char) (cs : List Char) (h : junkStartC c = true) :
    matchToken (c :: cs) = none := by
  simp only [junkStartC, Bool.not_eq_true', Bool.or_eq_false_iff, beq_eq_false_iff_ne,
    ne_eq] at h
  obtain ⟨⟨⟨⟨⟨⟨⟨⟨hs, hf⟩, ht⟩, hc⟩, hd⟩, ha⟩, ho⟩, hp1⟩, hp2⟩ := h
  have eS : lowerN 83 = 115 := by decide
  have eF : lowerN 70 = 102 := by decide
  have eT : lowerN 84 = 116 := by decide
  have eC : lowerN 67 = 99 := by decide
  have eD : lowerN 68 = 100 := by decide
  have eA : lowerN 65 = 97 := by decide
  have eO : lowerN 79 = 111 := by decide
  simp [matchToken, slashAlt, dateAlt, wordAlt, parenAlt, ciStarts, ciEqC,
    eS, eF, eT, eC, eD, eA, eO, hs, hf, ht, hc, hd, ha, ho, hp1, hp2,
    Ne.symm hs, Ne.symm hf, Ne.symm ht, Ne.symm hc, Ne.symm hd, Ne.symm ha, Ne.symm ho]

theorem findAll_junk : ∀ (junk rest : List Char), (∀ c ∈ junk, junkStartC c = true) →
    findAll ((junk ++ rest).length + 1) (junk ++ rest) = findAll (rest.length + 1) rest := by
  intro junk
  induction junk with
  | nil => intro rest _; rfl
  | cons c j ih =>
    intro rest h
    have hc : junkStartC c = true := h c (by simp)
    have hj : ∀ x ∈ j, junkStartC x = true := fun x hx => h x (by simp [hx])
    have hm := matchToken_junk c (j ++ rest) hc
    calc findAll ((c :: j ++ rest).length + 1) (c :: j ++ rest)
        = findAll ((j ++ rest).length + 1) (j ++ rest) := by
          simp only [List.cons_append, List.length_cons]
          simp [findAll, hm]
      _ = findAll (rest.length + 1) rest := ih rest hj

theorem tokenize_junk : ∀ (junk rest : List Char), (∀ c ∈ junk, junkStartC c = true) →
    tokenize (junk ++ rest) = tokenize rest := by
  intro junk rest h
  have h2 := findAll_junk junk rest h
  by_cases hjr : junk ++ rest = []
  · have hj : junk = [] := (List.append_eq_nil.mp hjr).1
    have hr : rest = [] := (List.append_eq_nil.mp hjr).2
    rw [hj, hr]; rfl
  · by_cases hrest : rest = []
    · subst hrest
      simp only [tokenize, h2]
      simp [hjr, findAll]
    · simp only [tokenize, h2]
      simp [hjr, hrest]

/-- The C10 theorem applied to a concrete rule with a trailing stray
parenthesis. -/
theorem C10_trailing_tokens_ignored_witness :
    Pop.parse_expr (Pop.ruleFuel (tokenize "SUBJECT:/a/ )".toList))
      (tokenize "SUBJECT:/a/ )".toList) 0 (envWith "apple") = .ok (true, 1) ∧
    Pop.parse_and_eval "SUBJECT:/a/ )".toList (envWith "apple") = .ok true :=
  ⟨by decide,
    C10_trailing_tokens_ignored.1 "SUBJECT:/a/ )".toList (envWith "apple") true 1 (by decide)⟩

/-- C8: the tokenizer extracts only the substrings matching the token
shapes and silently discards everything else between matches — stated
as: any run of characters that can begin no token is dropped without
affecting the token stream; concretely, stray punctuation between
tokens changes nothing and the misspelled keyword `SUBJEC:/b/`
vanishes, so a rule with the stray text evaluates exactly like the
rule with it removed. -/
theorem C8_tokenize_discards_junk :
    (∀ junk rest : List Char, (∀ c ∈ junk, junkStartC c = true) →
        tokenize (junk ++ rest) = tokenize rest) ∧
    tokenize "SUBJECT:/a/ !! OR ?? SUBJECT:/b/".toList =
      tokenize "SUBJECT:/a/ OR SUBJECT:/b/".toList ∧
    tokenize "SUBJECT:/a/ AND SUBJEC:/b/".toList = ["SUBJECT:/a/".toList, "AND".toList] ∧
    (∀ env : MailEnv,
        Pop.parse_and_eval "SUBJECT:/a/ !! OR ?? SUBJECT:/b/".toList env =
          Pop.parse_and_eval "SUBJECT:/a/ OR SUBJECT:/b/".toList env) ∧
    (∀ env : MailEnv,
        Pop.parse_and_eval "SUBJECT:/a/ AND SUBJEC:/b/".toList env =
          Pop.parse_and_eval "SUBJECT:/a/ AND".toList env) :=
  ⟨tokenize_junk, by decide, by decide, fun _ => rfl, fun _ => rfl⟩

/-- The C8 theorem applied to a concrete junk run before a rule. -/
theorem C8_tokenize_discards_junk_witness :
    (∀ c ∈ ":;!% ".toList, junkStartC c = true) ∧
    tokenize (":;!% ".toList ++ "SUBJECT:/a/".toList) = tokenize "SUBJECT:/a/".toList :=
  ⟨by decide, C8_tokenize_discards_junk.1 ":;!% ".toList "SUBJECT:/a/".toList (by decide)⟩

mutual

theorem removePixels_clean_node : ∀ (n : HNode) (m : HNode),
    removePixelsN n = some m → badImgN m = false
  | .htext s, m, h => by
    simp only [removePixelsN, Option.some.injEq] at h
    rw [← h]; rfl
  | .helem tag attrs ch, m, h => by
    simp only [removePixelsN] at h
    by_cases hb : (tag == "img".toList && pixelRemovable attrs) = true
    · rw [if_pos hb] at h; exact absurd h (by simp)
    · rw [if_neg hb] at h
      simp only [Option.some.injEq] at h
      rw [← h]
      show ((tag == "img".toList && pixelRemovable attrs) || badImgF (removePixelsF ch)) = false
      rw [removePixels_clean_forest ch, Bool.or_false]
      exact Bool.of_not_eq_true hb

theorem removePixels_clean_forest : ∀ (f : HForest), badImgF (removePixelsF f) = false
  | .hnil => rfl
  | .hcons n f => by
    cases hn : removePixelsN n with
    | none => simp [removePixelsF, hn, removePixels_clean_forest f]
    | some m =>
      simp [removePixelsF, hn, badImgF, removePixels_clean_node n m hn,
        removePixels_clean_forest f]

end

/-- The spec's `<img width="1" height="1" src="x">`. -/
def pixelImg : HNode :=
  .helem "img".toList
    [("width".toList, "1".toList), ("height".toList, "1".toList),
     ("src".toList, "x".toList)] .hnil

/-- A paragraph reading `Hello` followed by a 1×1 tracking pixel. -/
def helloDoc : HForest :=
  .hcons (.helem "p".toList [] (.hcons (.htext "Hello".toList) .hnil))
    (.hcons pixelImg .hnil)

/-- An image declaring `width="0" height="0"`. -/
def zeroImg : HNode :=
  .helem "img".toList
    [("width".toList, "0".toList), ("height".toList, "0".toList),
     ("src".toList, "x".toList)] .hnil

/-- An image whose width does not parse although its height is 1. -/
def oddImg : HNode :=
  .helem "img".toList
    [("width".toList, "abc".toList), ("height".toList, "1".toList)] .hnil

/-- C6, counterexample: `width="0"` parses to the integer 0 ≤ 1, yet
`sanitize_html` keeps the element — Python's `w and w <= 1` is false
for a falsy 0 — so "every image whose declared width or height
attribute parses to an integer ≤ 1 is removed" fails at this input. -/
theorem C6_zero_size_pixel_kept :
    pyInt "0".toList = .ok 0 ∧ ((0 : Int) ≤ 1) ∧
    imgCountF (sanitize_html (.hcons zeroImg .hnil)) = 1 := by
  refine ⟨by decide, by decide, by decide⟩

/-- C6, amended: `sanitize_html` removes every image element whose
width and height attributes both parse (absent attributes default to
"0") and whose parsed width or height is a *nonzero* integer ≤ 1; no
such image survives in the output of any document.  The spec's 1×1
example is removed from both the sanitized tree and the text derived
from it, and an element with an unparsable attribute is kept even when
the other attribute is 1 (the single `try` aborts the whole check). -/
theorem C6_pixel_removal :
    (∀ doc : HForest, badImgF (sanitize_html doc) = false) ∧
    imgCountF (sanitize_html helloDoc) = 0 ∧
    html_to_text_soup helloDoc = "Hello".toList ∧
    imgCountF (sanitize_html (.hcons oddImg .hnil)) = 1 :=
  ⟨removePixels_clean_forest, by decide, by decide, by decide⟩

/-- The spec's first-wins selection (section 4.3), stated directly:
keep a part when it is not an attachment and has the given content
type. -/
def plainPred (p : MailPart) : Bool :=
  !(p.disposition == some attachmentS) && p.ctype == textPlainS

def htmlPred (p : MailPart) : Bool :=
  !(p.disposition == some attachmentS) && p.ctype == textHtmlS

def firstPlain (parts : List MailPart) : Option (List Char) :=
  (parts.find? plainPred).map (fun p => pyStrip p.content)

def firstHtml (parts : List MailPart) : Option (List Char) :=
  (parts.find? htmlPred).map (fun p => p.content)

theorem textPlainS_ne_textHtmlS : textPlainS ≠ textHtmlS := by decide

theorem walkFold_firstwins : ∀ (parts : List MailPart) (tb hb : Option (List Char)),
    walkFold parts tb hb =
      ((match tb with | some t => some t | none => firstPlain parts),
       (match hb with | some h => some h | none => firstHtml parts)) := by
  intro parts
  induction parts with
  | nil =>
    intro tb hb
    cases tb <;> cases hb <;> rfl
  | cons p ps ih =>
    intro tb hb
    by_cases hatt : (p.disposition == some attachmentS) = true
    · rw [show walkFold (p :: ps) tb hb = walkFold ps tb hb from by
        rw [walkFold, if_pos hatt]]
      rw [ih]
      have hpp : plainPred p = false := by simp only [plainPred, hatt, Bool.not_true,
        Bool.false_and]
      have hhp : htmlPred p = false := by simp only [htmlPred, hatt, Bool.not_true,
        Bool.false_and]
      cases tb <;> cases hb <;>
        simp [firstPlain, firstHtml, List.find?_cons_of_neg, hpp, hhp]
    · have hatt' : (p.disposition == some attachmentS) = false := Bool.of_not_eq_true hatt
      by_cases hpl : (p.ctype == textPlainS && tb == none) = true
      · have h12 := hpl
        rw [Bool.and_eq_true] at h12
        obtain ⟨hct, htb0⟩ := h12
        have htb : tb = none := by
          have h2 := htb0
          cases tb with
          | none => rfl
          | some t => simp at h2
        rw [show walkFold (p :: ps) tb hb = walkFold ps (some (pyStrip p.content)) hb from by
          rw [walkFold, if_neg hatt, if_pos hpl]]
        rw [ih, htb]
        have hpp : plainPred p = true := by
          simp only [plainPred, hatt', Bool.not_false, Bool.true_and]; exact hct
        have hhp : htmlPred p = false := by
          have hceq : p.ctype = textPlainS := by simpa using hct
          simp [htmlPred, hceq, textPlainS_ne_textHtmlS]
        cases hb <;>
          simp [firstPlain, firstHtml, List.find?_cons_of_pos, List.find?_cons_of_neg,
            hpp, hhp]
      · by_cases hht : (p.ctype == textHtmlS && hb == none) = true
        · have h12 := hht
          rw [Bool.and_eq_true] at h12
          obtain ⟨hct, hhb0⟩ := h12
          have hhb : hb = none := by
            have h2 := hhb0
            cases hb with
            | none => rfl
            | some t => simp at h2
          rw [show walkFold (p :: ps) tb hb = walkFold ps tb (some p.content) from by
            rw [walkFold, if_neg hatt, if_neg hpl, if_pos hht]]
          rw [ih, hhb]
          have hhp : htmlPred p = true := by
            simp only [htmlPred, hatt', Bool.not_false, Bool.true_and]; exact hct
          have hpp : plainPred p = false := by
            have hceq : p.ctype = textHtmlS := by simpa using hct
            simp [plainPred, hceq, Ne.symm textPlainS_ne_textHtmlS]
          cases tb <;>
            simp [firstPlain, firstHtml, List.find?_cons_of_pos, List.find?_cons_of_neg,
              hpp, hhp]
        · rw [show walkFold (p :: ps) tb hb = walkFold ps tb hb from by
            rw [walkFold, if_neg hatt, if_neg hpl, if_neg hht]]
          rw [ih]
          cases tb with
          | some t =>
            cases hb with
            | some h => rfl
            | none =>
              have hhp : htmlPred p = false := by
                rcases Bool.and_eq_false_iff.mp (Bool.of_not_eq_true hht) with h1 | h1
                · simp [htmlPred, h1]
                · simp at h1
              simp [firstHtml, List.find?_cons_of_neg, hhp]
          | none =>
            have hpp : plainPred p = false := by
              rcases Bool.and_eq_false_iff.mp (Bool.of_not_eq_true hpl) with h1 | h1
              · simp [plainPred, h1]
              · simp at h1
            cases hb with
            | some h => simp [firstPlain, List.find?_cons_of_neg, hpp]
            | none =>
              have hhp : htmlPred p = false := by
                rcases Bool.and_eq_false_iff.mp (Bool.of_not_eq_true hht) with h1 | h1
                · simp [htmlPred, h1]
                · simp at h1
              simp [firstPlain, firstHtml, List.find?_cons_of_neg, hpp, hhp]

/-- C7, counterexample: a multipart message whose first `text/plain`
part strips to the empty string and whose `text/html` part is
`<p>Hi</p>` produces the text field `Hi` — the HTML→text conversion is
applied although a plain-text part exists, because Python's `if not
text_body` treats the empty body as missing. -/
theorem C7_empty_plain_fallback :
    extract_bodies (.multi [⟨"text/plain".toList, none, "  ".toList⟩,
        ⟨"text/html".toList, none, "<p>Hi</p>".toList⟩]) =
      (some [], some "<p>Hi</p>".toList) ∧
    textField (.multi [⟨"text/plain".toList, none, "  ".toList⟩,
        ⟨"text/html".toList, none, "<p>Hi</p>".toList⟩]) = "Hi".toList := by
  refine ⟨by decide, by decide⟩

/-- C7, amended: body extraction takes the first non-attachment
`text/plain` part (stripped) and the first `text/html` part, ignoring
later parts of the same type; the HTML→text conversion fills the text
field only when the plain-text candidate is absent *or empty* (Python
falsiness) — a nonempty plain body is never overridden — and the
spec's `Hello`/`<p>Hi</p>` example yields exactly `Hello`. -/
theorem C7_body_extraction :
    (∀ parts : List MailPart,
        extract_bodies (.multi parts) = (firstPlain parts, firstHtml parts)) ∧
    (∀ (t : List Char) (hb : Option (List Char)), t ≠ [] →
        textBodyFinal (some t) hb = some t) ∧
    textField (.multi [⟨"text/plain".toList, none, "Hello".toList⟩,
        ⟨"text/html".toList, none, "<p>Hi</p>".toList⟩]) = "Hello".toList := by
  refine ⟨?_, ?_, by decide⟩
  · intro parts
    rw [extract_bodies, walkFold_firstwins]
  · intro t hb h
    simp [textBodyFinal, h]

/-- The C7 theorem applied to the nonempty plain body `Hello`. -/
theorem C7_body_extraction_witness :
    "Hello".toList ≠ [] ∧ textBodyFinal (some "Hello".toList) none = some "Hello".toList :=
  ⟨by decide, C7_body_extraction.2.1 "Hello".toList none (by decide)⟩

/-- Modelled from the spec: a "genuine Message-Id" is an RFC 5322
msg-id, which is delimited by angle brackets; the repo contains no
code for this shape, only the spec's requirement that the fallback key
"cannot collide in format with a genuine Message-Id". -/
def isRfcMsgId (s : List Char) : Bool := litStarts "<".toList s && endsWithC '>' s

theorem toHexFixed_length (w x : Nat) : (toHexFixed w x).length = w := by
  simp [toHexFixed]

theorem sha1hex_length (raw : List Nat) : (sha1hex raw).length = 40 := by
  simp [sha1hex, toHexFixed_length, List.length_append]

/-- C9, counterexample: a Message-Id header value carrying surrounding
whitespace is not returned verbatim — `make_uidl_for_eml` strips it. -/
theorem C9_strip_not_verbatim :
    make_uidl_for_eml [] (some " <a@b> ".toList) = "<a@b>".toList ∧
    " <a@b> ".toList ≠ "<a@b>".toList := by
  refine ⟨by decide, by decide⟩

set_option maxRecDepth 40000 in
/-- C9, amended: the identity key is the Message-Id header value with
surrounding whitespace stripped whenever that leaves it non-blank;
otherwise it is `"SHA1-"` followed by the 40-character lowercase hex
SHA-1 digest of the raw message bytes (checked against the FIPS 180-1
`abc` test vector), a shape that is never an angle-bracketed
Message-Id. -/
theorem C9_uidl_key :
    (∀ (raw : List Nat) (mid : List Char), pyStrip mid ≠ [] →
        make_uidl_for_eml raw (some mid) = pyStrip mid) ∧
    (∀ raw : List Nat, make_uidl_for_eml raw none = "SHA1-".toList ++ sha1hex raw) ∧
    (∀ (raw : List Nat) (mid : List Char), pyStrip mid = [] →
        make_uidl_for_eml raw (some mid) = "SHA1-".toList ++ sha1hex raw) ∧
    (∀ raw : List Nat, (sha1hex raw).length = 40) ∧
    (∀ raw : List Nat, isRfcMsgId ("SHA1-".toList ++ sha1hex raw) = false) ∧
    sha1hex [97, 98, 99] = "a9993e364706816aba3e25717850c26c9cd0d89d".toList := by
  refine ⟨?_, ?_, ?_, sha1hex_length, fun raw => rfl, by decide⟩
  · intro raw mid h
    simp [make_uidl_for_eml, h]
  · intro raw
    rfl
  · intro raw mid h
    simp [make_uidl_for_eml, h]

/-- The C9 theorem applied to a concrete non-blank Message-Id. -/
theorem C9_uidl_key_witness :
    pyStrip "x".toList ≠ [] ∧
    make_uidl_for_eml [] (some "x".toList) = pyStrip "x".toList :=
  ⟨by decide, C9_uidl_key.1 [] "x".toList (by decide)⟩
